import Mathlib

/-!
Verification development for the centillion multi-source search-index
synchronization engine.  The definitions below are a shallow embedding of the
Python sources: `src/search/search.py` (the `Search` class), `src/config.py`
(the `Config` class), `src/doctypes/registry.py` (the registry metaclass),
`src/doctypes/doctype.py` (the `Doctype` base class and the common schema) and
the connector modules `src/doctypes/github.py` and `src/doctypes/gdrive.py`.

Conventions of the embedding:
* Python dicts become association lists (`List (String × _)`) with
  insertion-order semantics (`dictGet`, `dictInsert`).
* Python `datetime` values become `Nat` timestamps (only their order is used).
* Raised exceptions become `Except String` errors carrying a message that
  names the Python exception.
* A whoosh index becomes a list of committed documents; a writer whose
  transaction dies before `commit()` leaves the index unchanged, which the
  `Except` propagation models directly.
-/

/-- Lookup in a Python dict modelled as an association list
(first binding wins; `dictInsert` keeps keys unique). -/
def dictGet {α : Type} : List (String × α) → String → Option α
  | [], _ => none
  | (k, v) :: rest, key => if k = key then some v else dictGet rest key

/-- Assignment `d[key] = v` on a Python dict modelled as an association list:
replace the binding in place if the key is present, else append it. -/
def dictInsert {α : Type} : List (String × α) → String → α → List (String × α)
  | [], key, v => [(key, v)]
  | (k, w) :: rest, key, v =>
    if k = key then (key, v) :: rest else (k, w) :: dictInsert rest key v

/-- The keys of a Python dict modelled as an association list. -/
def dictKeys {α : Type} (m : List (String × α)) : List String := m.map Prod.fst

/-- The distinct elements of a list, modelling conversion to a Python `set`
(only membership matters; Python set iteration order is arbitrary). -/
def dedupKeep : List String → List String
  | [] => []
  | x :: xs =>
    let r := dedupKeep xs
    if x ∈ r then r else x :: r

/-- Lexicographic order on character lists (the order Python `sorted` uses
on strings, by code point). -/
def charsLe : List Char → List Char → Bool
  | [], _ => true
  | _ :: _, [] => false
  | a :: as, b :: bs => if a = b then charsLe as bs else decide (a < b)

/-- Lexicographic order on strings, by code point. -/
def strLe (a b : String) : Bool := charsLe a.data b.data

/-- Insertion step of a string sort, for modelling Python `sorted`. -/
def insertSorted (x : String) : List String → List String
  | [] => [x]
  | y :: ys => if strLe x y then x :: y :: ys else y :: insertSorted x ys

/-- Insertion sort on strings, modelling Python `sorted`. -/
def sortStrings : List String → List String
  | [] => []
  | x :: xs => insertSorted x (sortStrings xs)

/-- Whether the first character list is an initial segment of the second. -/
def leadsWith : List Char → List Char → Bool
  | [], _ => true
  | _ :: _, [] => false
  | a :: as, b :: bs => a == b && leadsWith as bs

/-- Whether `needle` occurs as a contiguous substring of the second list,
used to state what an error message does and does not mention. -/
def hasSub (needle : List Char) : List Char → Bool
  | [] => needle.isEmpty
  | c :: rest => leadsWith needle (c :: rest) || hasSub needle rest

/-- Python `s[0]`: the first character of a string, raising `IndexError` on
the empty string. -/
def firstCharOf (s : String) : Except String Char :=
  match s.data with
  | [] => Except.error "IndexError: string index out of range"
  | c :: _ => Except.ok c

/-- The extension part of `os.path.splitext` for a bare file name: leading
dots do not begin an extension; otherwise the extension starts at the last
dot, inclusive. -/
def splitextExt (fname : String) : String :=
  let rest := fname.data.dropWhile (fun c => c == '.')
  if rest.contains '.' then
    String.mk ('.' :: (rest.reverse.takeWhile (fun c => !(c == '.'))).reverse)
  else ""

/-- A stored field value of an indexed document: a string, a datetime
(modelled as a Nat timestamp), or Python None. -/
inductive FVal where
  | str (s : String)
  | date (n : Nat)
  | null
deriving DecidableEq

/-- A document handed to the index: a Python dict of field name to value. -/
abbrev Doc := List (String × FVal)

/-- The committed contents of the whoosh search index. -/
abbrev Index := List Doc

/-- Modelled from the spec: search.py imports SCHEMA_LABELS_ID from
src/doctypes/doctype.py, but that constant is absent from the snapshot under
src/.  Section 3 of the spec (Remote Map / Local Map: mappings from document
id to modified_time for a given kind) together with the common schema of
doctype.py fixes it to the common field name id. -/
def SCHEMA_LABELS_ID : String := "id"

/-- Modelled from the spec: search.py imports SCHEMA_LABELS_DOCTYPE from
src/doctypes/doctype.py, absent from the snapshot.  The spec reads the Local
Map from documents whose kind matches, so the label is the common field name
kind. -/
def SCHEMA_LABELS_DOCTYPE : String := "kind"

/-- Modelled from the spec: search.py imports SCHEMA_LABELS_MODIFIED from
src/doctypes/doctype.py, absent from the snapshot.  The spec projects
documents to id mapped to modified_time, so the label is the common field
name modified_time. -/
def SCHEMA_LABELS_MODIFIED : String := "modified_time"

/-- A constructed connector instance, as produced by
`Doctype.REGISTRY[doctype](cred_name)`: its kind label, the remote map its
`get_remote_map` returns, and its `get_by_id` fetch (which may raise). -/
structure DoctypeInstance where
  doctype : String
  get_remote_map : List (String × Nat)
  get_by_id : String → Except String Doc

/-- A Python value passed positionally into `Search.update_docs`: either a
doctype instance or a dict (this distinction is what the call-site bug at
search.py:136 confuses). -/
inductive PyArg where
  | inst (d : DoctypeInstance)
  | dict (m : List (String × Nat))

/-- The value stored for one doctype in `Config.get_doctypes_names_map`:
either a Python list of credential names or Python None (which the buggy
`doctypes_names_map[doctype] = doctypes_names_map[doctype].append(name)`
at config.py:172 stores). -/
inductive PyListVal where
  | lst (l : List String)
  | pynone
deriving DecidableEq

/-- One entry of the `doctypes` list in the configuration file: a credential
name and the doctype (kind) label it configures. -/
structure Cred where
  name : String
  doctype : String
deriving DecidableEq

/-- The ambient state a sync invocation reads: the configured credentials and
the connector-instance constructor `Doctype.REGISTRY[doctype](cred_name)`. -/
structure SyncCtx where
  creds : List Cred
  make : String → String → DoctypeInstance

namespace Search

/-- Loop body of `Search.get_local_map` (search.py:147-161): fold over the
stored documents whose kind field matches, building the dict of id to
modified date; a matching document without the id or modified field raises
KeyError. -/
def get_local_map_aux (doctype : String) :
    List Doc → List (String × Nat) → Except String (List (String × Nat))
  | [], m => Except.ok m
  | d :: rest, m =>
    if dictGet d SCHEMA_LABELS_DOCTYPE = some (FVal.str doctype) then
      match dictGet d SCHEMA_LABELS_ID with
      | none => Except.error ("KeyError: " ++ SCHEMA_LABELS_ID)
      | some (FVal.str idv) =>
        match dictGet d SCHEMA_LABELS_MODIFIED with
        | none => Except.error ("KeyError: " ++ SCHEMA_LABELS_MODIFIED)
        | some (FVal.date dv) => get_local_map_aux doctype rest (dictInsert m idv dv)
        | some _ => Except.error "TypeError: modified_time field is not a datetime"
      | some _ => Except.error "TypeError: id field is not a string"
    else get_local_map_aux doctype rest m

/-- `Search.get_local_map` (search.py:147-161): map of document id to last
modified date, over the stored documents of the given doctype. -/
def get_local_map (ix : Index) (doctype : String) :
    Except String (List (String × Nat)) :=
  get_local_map_aux doctype ix []

/-- The fetch loop of `Search.add_docs` (search.py:176-178): fetch each id
with `doctype_instance.get_by_id`; a raised exception propagates and the
writer is never committed. -/
def fetch_all (get_by_id : String → Except String Doc) :
    List String → Except String (List Doc)
  | [] => Except.ok []
  | a :: rest => do
    let doc ← get_by_id a
    let docs ← fetch_all get_by_id rest
    Except.ok (doc :: docs)

/-- `Search.add_docs` (search.py:163-179): fetch every id in `to_add` via the
doctype instance and add each resulting document, committing at the end; an
exception raised by any fetch aborts the batch with nothing committed. -/
def add_docs (ix : Index) (to_add : List String) (doctype_instance : DoctypeInstance) :
    Except String Index := do
  let docs ← fetch_all doctype_instance.get_by_id to_add
  Except.ok (ix ++ docs)

/-- `Search.delete_docs` (search.py:187-199): delete every stored document
whose id field equals one of the given ids. -/
def delete_docs (ix : Index) (to_delete : List String) : Index :=
  ix.filter (fun d =>
    !(to_delete.any (fun i => dictGet d SCHEMA_LABELS_ID == some (FVal.str i))))

/-- The whoosh `writer.update_document` call (search.py:234): delete any
stored document with the same unique id field, then add the new document; a
document without an id field is simply added. -/
def writer_update_document (ix : Index) (doc : Doc) : Index :=
  match dictGet doc SCHEMA_LABELS_ID with
  | some v => ix.filter (fun d => !(dictGet d SCHEMA_LABELS_ID == some v)) ++ [doc]
  | none => ix ++ [doc]

/-- `Search.get_by_id` (search.py:138-145): the first stored document whose
id field equals the given id, if any. -/
def get_by_id (ix : Index) (doc_id : String) : Option Doc :=
  ix.find? (fun d => dictGet d SCHEMA_LABELS_ID == some (FVal.str doc_id))

/-- Python subscription `remote_map[doc_id]` (search.py:229) on whatever
value occupies the remote_map variable: a dict looks the key up (KeyError if
absent); a doctype instance is not subscriptable. -/
def py_subscript (a : PyArg) (key : String) : Except String Nat :=
  match a with
  | PyArg.dict m =>
    match dictGet m key with
    | some v => Except.ok v
    | none => Except.error ("KeyError: " ++ key)
  | PyArg.inst _ => Except.error "TypeError: Doctype object is not subscriptable"

/-- The attribute access `doctype_instance.get_by_id(doc_id)` (search.py:233)
on whatever value occupies the doctype_instance parameter: a dict has no such
attribute. -/
def py_get_by_id (a : PyArg) (doc_id : String) : Except String Doc :=
  match a with
  | PyArg.inst d => d.get_by_id doc_id
  | PyArg.dict _ => Except.error "AttributeError: dict object has no attribute get_by_id"

/-- The per-id loop of `Search.update_docs` (search.py:228-234): look the id
up in the remote and local maps, and only when the remote date is strictly
newer fetch the document and overwrite it in the index.  Returns the index
and the ids actually fetched-and-written, in order. -/
def update_docs_loop (doctype_instance : PyArg) (rm : PyArg)
    (lm : List (String × Nat)) :
    Index → List String → List String → Except String (Index × List String)
  | ix, fetched, [] => Except.ok (ix, fetched)
  | ix, fetched, doc_id :: rest => do
    let remote_modified ← py_subscript rm doc_id
    let local_modified ←
      match dictGet lm doc_id with
      | some v => Except.ok v
      | none => Except.error ("KeyError: " ++ doc_id)
    if local_modified < remote_modified then do
      let doc ← py_get_by_id doctype_instance doc_id
      update_docs_loop doctype_instance rm lm
        (writer_update_document ix doc) (fetched ++ [doc_id]) rest
    else
      update_docs_loop doctype_instance rm lm ix fetched rest

/-- `Search.update_docs` (search.py:207-235).  The parameter order is that of
the Python signature: `(to_update, doctype_instance, remote_map=None)`.  When
`remote_map` is None it is recomputed from `doctype_instance.get_remote_map()`;
then `doctype_instance.doctype` is read to build the local map; then the
per-id loop runs; `commit()` only happens if no exception was raised. -/
def update_docs (ix : Index) (to_update : List String)
    (doctype_instance : PyArg) (remote_map : Option PyArg) :
    Except String (Index × List String) := do
  let rm ←
    match remote_map with
    | none =>
      match doctype_instance with
      | PyArg.inst d => Except.ok (PyArg.dict d.get_remote_map)
      | PyArg.dict _ =>
        Except.error "AttributeError: dict object has no attribute get_remote_map"
    | some v => Except.ok v
  let dt ←
    match doctype_instance with
    | PyArg.inst d => Except.ok d.doctype
    | PyArg.dict _ => Except.error "AttributeError: dict object has no attribute doctype"
  let lm ← get_local_map ix dt
  update_docs_loop doctype_instance rm lm ix [] to_update

end Search

/-- `Config.get_doctypes` (config.py:114-121): the sorted list of distinct
doctype labels appearing in the configured credentials. -/
def get_doctypes (creds : List Cred) : List String :=
  sortStrings (dedupKeep (creds.map Cred.doctype))

/-- Loop of `Config.get_doctypes_names_map` (config.py:165-175), including
the slip at config.py:172 where the return value of `list.append` (None) is
assigned back into the map: a second credential for a doctype stores None,
and a third raises AttributeError on None. -/
def get_doctypes_names_map_aux :
    List Cred → List (String × PyListVal) → Except String (List (String × PyListVal))
  | [], m => Except.ok m
  | c :: rest, m =>
    match dictGet m c.doctype with
    | some (PyListVal.lst _) =>
      get_doctypes_names_map_aux rest (dictInsert m c.doctype PyListVal.pynone)
    | some PyListVal.pynone =>
      Except.error "AttributeError: NoneType object has no attribute append"
    | none =>
      get_doctypes_names_map_aux rest (dictInsert m c.doctype (PyListVal.lst [c.name]))

/-- `Config.get_doctypes_names_map` (config.py:155-176): map of doctype label
to the credential names configured for it (with the append slip above). -/
def get_doctypes_names_map (creds : List Cred) :
    Except String (List (String × PyListVal)) :=
  get_doctypes_names_map_aux creds []

namespace Search

/-- One (doctype, credential-name) pass of `Search.sync_documents`
(search.py:118-136): construct the instance, take the remote and local maps,
compute the three buckets by set arithmetic, then add, delete and update.
The update call is transcribed exactly as written at search.py:136, i.e. with
`remote_map` passed in the `doctype_instance` position of `update_docs` and
the instance in the `remote_map` position. -/
def sync_pair (ctx : SyncCtx) (ix : Index) (doctype cred_name : String) :
    Except String Index := do
  let inst := ctx.make doctype cred_name
  let remote_map := inst.get_remote_map
  let remote_items := dedupKeep (dictKeys remote_map)
  let lm ← get_local_map ix doctype
  let local_items := dedupKeep (dictKeys lm)
  let to_add := remote_items.filter (fun k => !(local_items.contains k))
  let to_delete := local_items.filter (fun k => !(remote_items.contains k))
  let to_update := remote_items.filter (fun k => local_items.contains k)
  let ix1 ← add_docs ix to_add inst
  let ix2 := delete_docs ix1 to_delete
  let r ← update_docs ix2 to_update (PyArg.dict remote_map) (some (PyArg.inst inst))
  Except.ok r.1

/-- The inner credential loop of `Search.sync_documents` (search.py:117). -/
def sync_creds (ctx : SyncCtx) (doctype : String) :
    List String → Index → Except String Index
  | [], ix => Except.ok ix
  | n :: rest, ix => do
    let ix2 ← sync_pair ctx ix doctype n
    sync_creds ctx doctype rest ix2

/-- The outer doctype loop of `Search.sync_documents` (search.py:111-117):
for each doctype look its credential names up in the names map (iterating
None raises TypeError) and run one pass per name. -/
def sync_documents_aux (ctx : SyncCtx) (names_map : List (String × PyListVal)) :
    List String → Index → Except String Index
  | [], ix => Except.ok ix
  | doctype :: rest, ix => do
    let cn ←
      match dictGet names_map doctype with
      | some v => Except.ok v
      | none => Except.error ("KeyError: " ++ doctype)
    let names ←
      match cn with
      | PyListVal.lst l => Except.ok l
      | PyListVal.pynone => Except.error "TypeError: NoneType object is not iterable"
    let ix2 ← sync_creds ctx doctype names ix
    sync_documents_aux ctx names_map rest ix2

/-- `Search.sync_documents` (search.py:94-136) with both optional parameters
left at their None defaults (the invocation all the claims concern): read the
names map, enumerate all configured doctypes, and run the per-pair loop.  Any
exception raised inside propagates out; nothing is returned on success. -/
def sync_documents (ctx : SyncCtx) (ix : Index) : Except String Index := do
  let names_map ← get_doctypes_names_map ctx.creds
  let dts := get_doctypes ctx.creds
  sync_documents_aux ctx names_map dts ix

end Search

/-- The set-arithmetic bucket `to_add = remote_items - local_items` of
`Search.sync_documents` (search.py:129). -/
def to_add (remote_items local_items : Finset String) : Finset String :=
  remote_items \ local_items

/-- The set-arithmetic bucket `to_delete = local_items - remote_items` of
`Search.sync_documents` (search.py:130). -/
def to_delete (remote_items local_items : Finset String) : Finset String :=
  local_items \ remote_items

/-- The set-arithmetic bucket
`to_update = remote_items.intersection(local_items)` of
`Search.sync_documents` (search.py:131). -/
def to_update (remote_items local_items : Finset String) : Finset String :=
  remote_items ∩ local_items

/-- The strictly-newer gate of `Search.update_docs` (search.py:229-232): an
id passes when it is present in both maps and its remote date is strictly
greater than its local date. -/
def remote_newer (rm lm : List (String × Nat)) (i : String) : Bool :=
  match dictGet rm i, dictGet lm i with
  | some r, some l => decide (l < r)
  | _, _ => false

/-- A whoosh field declaration, carrying its constructor (the Python class,
which is what `type(...)` compares at search.py:57-58) and the arguments the
sources pass. -/
inductive WhooshField where
  | ID (stored : Bool) (unique : Bool)
  | TEXT (stored : Bool) (field_boost : Nat) (stemming : Bool)
  | DATETIME (stored : Bool)
  | KEYWORD (stored : Bool) (lowercase : Bool) (commas : Bool)
deriving DecidableEq

/-- The Python class of a whoosh field value, i.e. what
`type(this_doctype_schema[schema_field])` evaluates to. -/
def fieldType : WhooshField → String
  | WhooshField.ID _ _ => "ID"
  | WhooshField.TEXT _ _ _ => "TEXT"
  | WhooshField.DATETIME _ => "DATETIME"
  | WhooshField.KEYWORD _ _ _ => "KEYWORD"

/-- `Doctype.common_schema` (doctype.py:27-35): the common fields every
document type shares. -/
def common_schema : List (String × WhooshField) :=
  [("id", WhooshField.ID true true),
   ("fingerprint", WhooshField.ID true false),
   ("kind", WhooshField.ID true false),
   ("created_time", WhooshField.DATETIME true),
   ("modified_time", WhooshField.DATETIME true),
   ("indexed_time", WhooshField.DATETIME true),
   ("name", WhooshField.TEXT true 100 false)]

namespace Search

/-- The per-field body of the schema merge loop of `Search.get_schema`
(search.py:54-65): a field already present must have the same declared type,
else a CentillionSearchIndexException is raised with the message built at
search.py:60-61; an absent field is added. -/
def merge_field (doctype : String) (acc : List (String × WhooshField))
    (fs : String × WhooshField) : Except String (List (String × WhooshField)) :=
  match dictGet acc fs.1 with
  | some ours =>
    if fieldType fs.2 ≠ fieldType ours then
      Except.error ("Error: schema mismatch with existing index for field "
        ++ fs.1 ++ ", doctype " ++ doctype)
    else Except.ok acc
  | none => Except.ok (acc ++ [(fs.1, fs.2)])

/-- The loop over one doctype schema in `Search.get_schema` (search.py:54). -/
def merge_schema (doctype : String) :
    List (String × WhooshField) → List (String × WhooshField) →
    Except String (List (String × WhooshField))
  | acc, [] => Except.ok acc
  | acc, fs :: rest => do
    let acc2 ← merge_field doctype acc fs
    merge_schema doctype acc2 rest

/-- The doctype loop of `Search.get_schema` (search.py:50-65): look each
configured doctype up in the registry (KeyError if absent) and merge its
declared schema into the accumulator. -/
def get_schema_aux (registry : List (String × List (String × WhooshField))) :
    List (String × WhooshField) → List String →
    Except String (List (String × WhooshField))
  | acc, [] => Except.ok acc
  | acc, d :: rest => do
    let s ←
      match dictGet registry d with
      | some s => Except.ok s
      | none => Except.error ("KeyError: " ++ d)
    let acc2 ← merge_schema d acc s
    get_schema_aux registry acc2 rest

/-- `Search.get_schema` (search.py:40-68): start from the common schema, then
merge the declared schema of every configured doctype, failing on a declared
type mismatch.  The registry and the configured doctype list are the two
pieces of ambient state the Python method reads. -/
def get_schema (registry : List (String × List (String × WhooshField)))
    (doctypes_list : List String) : Except String (List (String × WhooshField)) :=
  get_schema_aux registry common_schema doctypes_list

end Search

/-- The declared fields contributed by each doctype of the list, in order
(the raw material `Search.get_schema` merges after the common schema). -/
def registry_fields (registry : List (String × List (String × WhooshField))) :
    List String → List (String × WhooshField)
  | [] => []
  | d :: rest =>
    (match dictGet registry d with
     | some s => s
     | none => []) ++ registry_fields registry rest

/-- Every field declaration `Search.get_schema` sees: the common schema
followed by each configured doctype contribution. -/
def schema_pool (registry : List (String × List (String × WhooshField)))
    (dts : List String) : List (String × WhooshField) :=
  common_schema ++ registry_fields registry dts

/-- Whether the accumulated schema already records, for the key of the given
field declaration, a field of the same declared type. -/
def agreesIn (acc : List (String × WhooshField)) (fs : String × WhooshField) : Bool :=
  match dictGet acc fs.1 with
  | some v => fieldType v == fieldType fs.2
  | none => false

/-- `DoctypeRegistry.__new__` (registry.py:18-26): compute the label (the
doctype attribute if resolvable, else the class name, with a warning), then
assign `REGISTRY[label] = new_cls`.  Returns the new registry and whether the
fallback warning was logged.  Registration is total: it never fails. -/
def register_class (registry : List (String × String))
    (doctype_attr : Option String) (cls_name : String) :
    List (String × String) × Bool :=
  match doctype_attr with
  | some l => (dictInsert registry l cls_name, false)
  | none => (dictInsert registry cls_name cls_name, true)

/-- `GithubFileDoctype._ignore_file_check` (github.py:622-641): ignore a file
whose name, or any of whose path pieces, starts with a dot or an underscore;
indexing an empty name or piece raises IndexError. -/
def github_file_pieces_check : List String → Except String Bool
  | [] => Except.ok false
  | p :: rest => do
    let c ← firstCharOf p
    if c = '.' ∨ c = '_' then Except.ok true else github_file_pieces_check rest

/-- `GithubFileDoctype._ignore_file_check` (github.py:622-641), entry point:
check the file name first, then every path piece. -/
def github_file_ignore_check (fname : String) (fext : String)
    (fpathpieces : List String) : Except String Bool := do
  let c ← firstCharOf fname
  if c = '.' ∨ c = '_' then Except.ok true
  else github_file_pieces_check fpathpieces

/-- `GithubMarkdownDoctype._ignore_file_check` (github.py:749-765): defer to
the parent check first; if the parent ignores, ignore; otherwise ignore
exactly the files whose extension is not .md or .markdown. -/
def github_markdown_ignore_check (fname : String) (fext : String)
    (fpathpieces : List String) : Except String Bool := do
  let b ← github_file_ignore_check fname fext fpathpieces
  if b then Except.ok true
  else if fext ∈ [".md", ".markdown"] then Except.ok false
  else Except.ok true

/-- `GDriveFileDoctype._ignore_file_check` (gdrive.py:305-316): currently
ignores nothing (returns False for every argument). -/
def gdrive_file_ignore_check (fname : String) (mimetype : String) : Bool :=
  false

/-- `GDriveDocxDoctype._ignore_file_check` (gdrive.py:365-378): keep files
with a .docx or .doc extension or the Google document mimetype; ignore
everything else. -/
def gdrive_docx_ignore_check (fname : String) (mimetype : String) : Bool :=
  let fext := splitextExt fname
  if fext ∈ [".docx", ".doc"] then false
  else if mimetype ∈ ["application/vnd.google-apps.document"] then false
  else true

/-- The field names of the document dict built by
`GithubIssuePRDoctype.get_by_id` (github.py:420-432). -/
def github_issue_pr_doc_keys : List String :=
  ["id", "kind", "created_time", "modified_time", "indexed_time", "name",
   "issue_title", "issue_url", "repo_name", "github_user", "content"]

/-- The field names of the document dict built by
`GithubFileDoctype.get_by_id` (github.py:672-683). -/
def github_file_doc_keys : List String :=
  ["id", "kind", "created_time", "modified_time", "indexed_time", "name",
   "file_name", "file_url", "repo_path", "github_user"]

/-- The field names of the document dict built by
`GithubMarkdownDoctype.get_by_id` (github.py:798-811). -/
def github_markdown_doc_keys : List String :=
  ["id", "fingerprint", "kind", "created_time", "modified_time", "indexed_time",
   "name", "file_name", "file_url", "repo_path", "github_user", "content"]

/-- The field names of the document dict built by
`GDriveFileDoctype.get_by_id` (gdrive.py:288-301). -/
def gdrive_file_doc_keys : List String :=
  ["id", "fingerprint", "kind", "created_time", "modified_time", "indexed_time",
   "name", "file_name", "file_url", "mimetype", "owner_email", "owner_name"]

/-! Concrete fixtures used to instantiate the theorems below. -/

/-- A stored document of kind plain with id a, last modified at time 5. -/
def docA : Doc :=
  [("id", FVal.str "a"), ("kind", FVal.str "plain"), ("modified_time", FVal.date 5)]

/-- A stored document of kind plain with id b, last modified at time 7. -/
def docB : Doc :=
  [("id", FVal.str "b"), ("kind", FVal.str "plain"), ("modified_time", FVal.date 7)]

/-- A two-document index holding `docA` and `docB`. -/
def ixW : Index := [docA, docB]

/-- A plain connector instance whose remote says a was modified at 9 (newer
than the stored 5) and b at 7 (equal to the stored 7), and whose fetch
returns a fresh document stamped 9. -/
def instW : DoctypeInstance :=
  ⟨"plain", [("a", 9), ("b", 7)],
   fun i => Except.ok
     [("id", FVal.str i), ("kind", FVal.str "plain"), ("modified_time", FVal.date 9)]⟩

/-- The index after `update_docs` refreshed exactly document a. -/
def ix2W : Index :=
  [docB,
   [("id", FVal.str "a"), ("kind", FVal.str "plain"), ("modified_time", FVal.date 9)]]

/-- A configuration context with a single credential named cred-one for the
plain doctype, whose connector has an empty remote. -/
def ctx3 : SyncCtx :=
  ⟨[⟨"cred-one", "plain"⟩], fun d _ => ⟨d, [], fun _ => Except.ok []⟩⟩

/-- A configuration context with two pairs: credential cred-a for doctype
alpha and credential cred-b for doctype beta, both with empty remotes. -/
def ctx7 : SyncCtx :=
  ⟨[⟨"cred-a", "alpha"⟩, ⟨"cred-b", "beta"⟩],
   fun d _ => ⟨d, [], fun _ => Except.ok []⟩⟩

/-- A configuration context in which two credentials, cred-a and cred-b,
share the single doctype plain. -/
def ctx8 : SyncCtx :=
  ⟨[⟨"cred-a", "plain"⟩, ⟨"cred-b", "plain"⟩],
   fun d _ => ⟨d, [], fun _ => Except.ok []⟩⟩

/-- A connector instance whose fetch raises NotFoundError for id x (the
document vanished between enumeration and fetch) and succeeds otherwise,
standing for a connector such as GDriveFileDoctype whose get_by_id
propagates the remote miss. -/
def inst_gone : DoctypeInstance :=
  ⟨"plain", [],
   fun a => if a = "x" then Except.error "NotFoundError"
            else Except.ok [("id", FVal.str a)]⟩

/-- A fetch result table in the style of `GithubIssuePRDoctype.get_by_id`
(github.py:406-412): the vanished id x yields the empty dict instead of an
exception; every other id yields a well-formed document. -/
def fW (a : String) : Doc :=
  if a = "x" then []
  else [("id", FVal.str a), ("kind", FVal.str "plain"), ("modified_time", FVal.date 0)]

/-- The registry contents of the two mismatched test doctypes of
tests/test_search.py (SearchSchemaTest): both declare matched_field as TEXT,
and they declare mismatched_field as TEXT and DATETIME respectively. -/
def reg_mismatched : List (String × List (String × WhooshField)) :=
  [("mismatched-1",
    [("matched_field", WhooshField.TEXT true 1 false),
     ("mismatched_field", WhooshField.TEXT true 1 false)]),
   ("mismatched-2",
    [("matched_field", WhooshField.TEXT true 1 false),
     ("mismatched_field", WhooshField.DATETIME true)])]

/-- The message `Search.get_schema` raises on the mismatched fixtures. -/
def msg_mismatched : String :=
  "Error: schema mismatch with existing index for field mismatched_field, doctype mismatched-2"

/-- A registry in which two doctypes declare the shared field content with
exactly the same type. -/
def reg_ok : List (String × List (String × WhooshField)) :=
  [("kind-a", [("content", WhooshField.TEXT true 1 true)]),
   ("kind-b", [("content", WhooshField.TEXT true 1 true)])]

/-! Helper lemmas about the dict model. -/

theorem dictGet_dictInsert_self {α : Type} (m : List (String × α)) (key : String)
    (v : α) : dictGet (dictInsert m key v) key = some v := by
  induction m with
  | nil => simp [dictInsert, dictGet]
  | cons p rest ih =>
    obtain ⟨k, w⟩ := p
    by_cases h : k = key
    · simp [dictInsert, dictGet, h]
    · simp [dictInsert, dictGet, h, ih]

theorem dictGet_dictInsert_ne {α : Type} (m : List (String × α)) (key k0 : String)
    (v : α) (h : k0 ≠ key) : dictGet (dictInsert m key v) k0 = dictGet m k0 := by
  induction m with
  | nil => simp [dictInsert, dictGet, Ne.symm h]
  | cons p rest ih =>
    obtain ⟨k, w⟩ := p
    by_cases hk : k = key
    · subst hk
      simp [dictInsert, dictGet, Ne.symm h]
    · by_cases hk0 : k = k0
      · subst hk0
        simp [dictInsert, dictGet, hk]
      · simp [dictInsert, dictGet, hk, hk0, ih]

theorem mem_dictInsert {α : Type} (m : List (String × α)) (key : String) (v : α)
    (p : String × α) (h : p ∈ dictInsert m key v) : p = (key, v) ∨ p ∈ m := by
  induction m with
  | nil => simpa [dictInsert] using h
  | cons q rest ih =>
    obtain ⟨k, w⟩ := q
    by_cases hk : k = key
    · simp [dictInsert, hk] at h
      rcases h with h | h
      · exact Or.inl h
      · exact Or.inr (List.mem_cons_of_mem _ h)
    · simp [dictInsert, hk] at h
      rcases h with h | h
      · exact Or.inr (by simp [h])
      · rcases ih h with h2 | h2
        · exact Or.inl h2
        · exact Or.inr (List.mem_cons_of_mem _ h2)

theorem dictGet_eq_some_mem {α : Type} (m : List (String × α)) (k : String) (v : α)
    (h : dictGet m k = some v) : (k, v) ∈ m := by
  induction m with
  | nil => simp [dictGet] at h
  | cons p rest ih =>
    obtain ⟨k1, w⟩ := p
    by_cases hk : k1 = k
    · subst hk
      simp [dictGet] at h
      simp [h]
    · simp [dictGet, hk] at h
      exact List.mem_cons_of_mem _ (ih h)

theorem dictGet_eq_none_iff {α : Type} (m : List (String × α)) (k : String) :
    dictGet m k = none ↔ k ∉ dictKeys m := by
  induction m with
  | nil => simp [dictGet, dictKeys]
  | cons p rest ih =>
    obtain ⟨k1, w⟩ := p
    by_cases hk : k1 = k
    · subst hk
      simp [dictGet, dictKeys]
    · simp [dictGet, dictKeys, hk, Ne.symm hk] at ih ⊢
      exact ih

theorem dictGet_append_some {α : Type} (l1 l2 : List (String × α)) (k : String)
    (v : α) (h : dictGet l1 k = some v) : dictGet (l1 ++ l2) k = some v := by
  induction l1 with
  | nil => simp [dictGet] at h
  | cons p rest ih =>
    obtain ⟨k1, w⟩ := p
    by_cases hk : k1 = k
    · subst hk
      simp [dictGet] at h ⊢
      exact h
    · simp [dictGet, hk] at h ⊢
      exact ih h

theorem dictGet_append_none {α : Type} (l1 l2 : List (String × α)) (k : String)
    (h : dictGet l1 k = none) : dictGet (l1 ++ l2) k = dictGet l2 k := by
  induction l1 with
  | nil => simp
  | cons p rest ih =>
    obtain ⟨k1, w⟩ := p
    by_cases hk : k1 = k
    · subst hk
      simp [dictGet] at h
    · simp [dictGet, hk] at h ⊢
      exact ih h

theorem dictGet_of_nodup_mem {α : Type} (m : List (String × α)) (k : String)
    (v : α) (hn : (dictKeys m).Nodup) (h : (k, v) ∈ m) : dictGet m k = some v := by
  induction m with
  | nil => simp at h
  | cons p rest ih =>
    obtain ⟨k1, w⟩ := p
    simp [dictKeys] at hn
    rcases List.mem_cons.mp h with h1 | h1
    · obtain ⟨hk, hv⟩ := Prod.ext_iff.mp h1
      subst hk
      subst hv
      simp [dictGet]
    · by_cases hk : k1 = k
      · subst hk
        exact absurd h1 (hn.1 v)
      · simp [dictGet, hk]
        exact ih hn.2 h1

/-! Claim theorems. -/

/-- C1: for every remote map and local map used in one sync pass, the
buckets computed at search.py:129-131 satisfy `to_add = R - L`,
`to_delete = L - R`, `to_update = R ∩ L`; consequently the three buckets are
pairwise disjoint and their union is exactly `R ∪ L`, so every key of
`R ∪ L` is covered exactly once (the cardinalities add up). -/
theorem sync_buckets_partition (R L : Finset String) :
    to_add R L ∩ to_delete R L = ∅
    ∧ to_add R L ∩ to_update R L = ∅
    ∧ to_delete R L ∩ to_update R L = ∅
    ∧ to_add R L ∪ to_update R L ∪ to_delete R L = R ∪ L
    ∧ (to_add R L).card + (to_update R L).card + (to_delete R L).card
        = (R ∪ L).card := by
  have h1 : to_add R L ∩ to_delete R L = ∅ := by
    ext x
    simp [to_add, to_delete]
    tauto
  have h2 : to_add R L ∩ to_update R L = ∅ := by
    ext x
    simp [to_add, to_update]
    tauto
  have h3 : to_delete R L ∩ to_update R L = ∅ := by
    ext x
    simp [to_delete, to_update]
    tauto
  have h4 : to_add R L ∪ to_update R L ∪ to_delete R L = R ∪ L := by
    ext x
    simp [to_add, to_update, to_delete]
    tauto
  refine ⟨h1, h2, h3, h4, ?_⟩
  have hd1 : Disjoint (to_add R L) (to_update R L) :=
    Finset.disjoint_iff_inter_eq_empty.mpr h2
  have hd2 : Disjoint (to_add R L ∪ to_update R L) (to_delete R L) := by
    rw [Finset.disjoint_union_left]
    constructor
    · exact Finset.disjoint_iff_inter_eq_empty.mpr h1
    · exact (Finset.disjoint_iff_inter_eq_empty.mpr h3).symm
  calc (to_add R L).card + (to_update R L).card + (to_delete R L).card
      = (to_add R L ∪ to_update R L).card + (to_delete R L).card := by
        rw [Finset.card_union_of_disjoint hd1]
    _ = (to_add R L ∪ to_update R L ∪ to_delete R L).card := by
        rw [Finset.card_union_of_disjoint hd2]
    _ = (R ∪ L).card := by rw [h4]

/-- C5: the common schema declares fingerprint as a common field, but the
documents built by `GithubIssuePRDoctype.get_by_id` (github.py:420-432) and
`GithubFileDoctype.get_by_id` (github.py:672-683) do not carry it, while the
documents built by `GithubMarkdownDoctype.get_by_id` and
`GDriveFileDoctype.get_by_id` do: the set of common fields present on a
document is not identical across kinds, contradicting the claimed invariant.
All four document dicts do carry the remaining six common fields. -/
theorem common_fields_fingerprint_divergence :
    "fingerprint" ∈ common_schema.map Prod.fst
    ∧ "fingerprint" ∉ github_issue_pr_doc_keys
    ∧ "fingerprint" ∉ github_file_doc_keys
    ∧ "fingerprint" ∈ github_markdown_doc_keys
    ∧ "fingerprint" ∈ gdrive_file_doc_keys
    ∧ (∀ k ∈ ["id", "kind", "created_time", "modified_time", "indexed_time",
              "name"],
        k ∈ github_issue_pr_doc_keys ∧ k ∈ github_file_doc_keys
        ∧ k ∈ github_markdown_doc_keys ∧ k ∈ gdrive_file_doc_keys) := by
  decide

/-- C9: `DoctypeRegistry.__new__` (registry.py:18-26) is total, so defining a
class under the registry metaclass always adds (or overwrites) an entry:
after registration the effective label, which falls back to the class name
exactly when no doctype attribute resolves, maps to the new class; the
fallback warning is surfaced exactly in the fallback case, and every other
label keeps its previous binding, so re-registering a label simply replaces
the previous entry (last writer wins). -/
theorem register_class_never_fails (registry : List (String × String))
    (doctype_attr : Option String) (cls_name : String) :
    dictGet (register_class registry doctype_attr cls_name).1
        (doctype_attr.getD cls_name) = some cls_name
    ∧ (register_class registry doctype_attr cls_name).2 = doctype_attr.isNone
    ∧ ∀ k, k ≠ doctype_attr.getD cls_name →
        dictGet (register_class registry doctype_attr cls_name).1 k
          = dictGet registry k := by
  cases doctype_attr with
  | none =>
    refine ⟨?_, rfl, ?_⟩
    · simpa [register_class] using dictGet_dictInsert_self registry cls_name cls_name
    · intro k hk
      simpa [register_class] using
        dictGet_dictInsert_ne registry cls_name k cls_name (by simpa using hk)
  | some l =>
    refine ⟨?_, rfl, ?_⟩
    · simpa [register_class] using dictGet_dictInsert_self registry l cls_name
    · intro k hk
      simpa [register_class] using
        dictGet_dictInsert_ne registry l k cls_name (by simpa using hk)

/-- Witness for C9: re-registering the already-present label x replaces the
old class with the new one (last writer wins) and the binding of the other
label y is untouched. -/
theorem register_class_never_fails_witness :
    dictGet (register_class [("x", "OldCls"), ("y", "OtherCls")]
        (some "x") "NewCls").1 "x" = some "NewCls"
    ∧ dictGet (register_class [("x", "OldCls"), ("y", "OtherCls")]
        (some "x") "NewCls").1 "y"
        = dictGet [("x", "OldCls"), ("y", "OtherCls")] "y" :=
  ⟨(register_class_never_fails [("x", "OldCls"), ("y", "OtherCls")]
      (some "x") "NewCls").1,
   (register_class_never_fails [("x", "OldCls"), ("y", "OtherCls")]
      (some "x") "NewCls").2.2 "y" (by decide)⟩

/-- C10: exclusion is monotone down both specialization chains named by the
claim.  For the Github chain, whenever the parent check of
`GithubFileDoctype` ignores an item, the `GithubMarkdownDoctype` check,
which consults the parent first (github.py:759-760), ignores it as well.
For the GDrive chain, the parent check of `GDriveFileDoctype` ignores
nothing at all (gdrive.py:316), so the implication from parent exclusion to
`GDriveDocxDoctype` exclusion holds as well. -/
theorem ignore_checks_monotone :
    (∀ fname fext pieces,
      github_file_ignore_check fname fext pieces = Except.ok true →
      github_markdown_ignore_check fname fext pieces = Except.ok true)
    ∧ (∀ fname mimetype, gdrive_file_ignore_check fname mimetype = false)
    ∧ (∀ fname mimetype, gdrive_file_ignore_check fname mimetype = true →
        gdrive_docx_ignore_check fname mimetype = true) := by
  refine ⟨?_, ?_, ?_⟩
  · intro fname fext pieces h
    unfold github_markdown_ignore_check
    rw [h]
    rfl
  · intro fname mimetype
    rfl
  · intro fname mimetype h
    simp [gdrive_file_ignore_check] at h

/-- Witness for C10: the dotfile name .git is ignored by the parent Github
file check, and the markdown specialization therefore ignores it too. -/
theorem ignore_checks_monotone_witness :
    github_markdown_ignore_check ".git" "" [] = Except.ok true :=
  ignore_checks_monotone.1 ".git" "" [] (by rfl)

/-! Helper lemmas about Except binds and the update loop. -/

theorem except_ok_bind {ε α β : Type} (a : α) (f : α → Except ε β) :
    (Except.ok a >>= f) = f a := rfl

theorem except_error_bind {ε α β : Type} (e : ε) (f : α → Except ε β) :
    ((Except.error e : Except ε α) >>= f) = Except.error e := rfl

theorem except_bind_eq_ok {ε α β : Type} {x : Except ε α} {f : α → Except ε β}
    {b : β} (h : (x >>= f) = Except.ok b) :
    ∃ a, x = Except.ok a ∧ f a = Except.ok b := by
  cases x with
  | error e => simp [except_error_bind] at h
  | ok a => exact ⟨a, rfl, by simpa [except_ok_bind] using h⟩

theorem update_docs_loop_fetched (inst : DoctypeInstance)
    (rm lm : List (String × Nat)) :
    ∀ (l : List String) (ix0 : Index) (acc : List String) (ix2 : Index)
      (fetched : List String),
    Search.update_docs_loop (PyArg.inst inst) (PyArg.dict rm) lm ix0 acc l
        = Except.ok (ix2, fetched) →
    fetched = acc ++ l.filter (fun i => remote_newer rm lm i) := by
  intro l
  induction l with
  | nil =>
    intro ix0 acc ix2 fetched h
    simp [Search.update_docs_loop] at h
    simp [h.2.symm]
  | cons i rest ih =>
    intro ix0 acc ix2 fetched h
    simp only [Search.update_docs_loop, Search.py_subscript] at h
    cases hrm : dictGet rm i with
    | none => rw [hrm] at h; simp [except_error_bind] at h
    | some r =>
      rw [hrm] at h
      simp only [except_ok_bind] at h
      cases hlm : dictGet lm i with
      | none => rw [hlm] at h; simp [except_error_bind] at h
      | some lv =>
        rw [hlm] at h
        simp only [except_ok_bind] at h
        by_cases hlt : lv < r
        · rw [if_pos hlt] at h
          simp only [Search.py_get_by_id] at h
          cases hf : inst.get_by_id i with
          | error e =>
            rw [hf] at h
            simp [except_error_bind] at h
          | ok doc =>
            rw [hf] at h
            simp only [except_ok_bind] at h
            have hrec := ih _ _ _ _ h
            rw [hrec]
            simp [remote_newer, hrm, hlm, hlt]
        · rw [if_neg hlt] at h
          have hrec := ih _ _ _ _ h
          rw [hrec]
          simp [remote_newer, hrm, hlm, hlt]

/-- C2: in `Search.update_docs` (search.py:207-235), invoked as its signature
and the tests intend (instance in the doctype_instance position, remote map
passed explicitly), the ids fetched and rewritten are exactly the ids of
`to_update` whose remote modified date is strictly greater than their local
modified date; in particular an id whose remote date is equal to or older
than its local date is never fetched and never written. -/
theorem update_docs_timestamp_gating (ix : Index) (to_update : List String)
    (inst : DoctypeInstance) (rm lm : List (String × Nat)) (ix2 : Index)
    (fetched : List String)
    (hlm : Search.get_local_map ix inst.doctype = Except.ok lm)
    (h : Search.update_docs ix to_update (PyArg.inst inst)
        (some (PyArg.dict rm)) = Except.ok (ix2, fetched)) :
    fetched = to_update.filter (fun i => remote_newer rm lm i)
    ∧ ∀ i ∈ to_update, ∀ r lv, dictGet rm i = some r → dictGet lm i = some lv →
        ¬ lv < r → i ∉ fetched := by
  have hloop : Search.update_docs_loop (PyArg.inst inst) (PyArg.dict rm) lm
      ix [] to_update = Except.ok (ix2, fetched) := by
    simp only [Search.update_docs, except_ok_bind] at h
    rw [hlm] at h
    simpa [except_ok_bind] using h
  have hmain := update_docs_loop_fetched inst rm lm to_update ix [] ix2 fetched hloop
  simp only [List.nil_append] at hmain
  refine ⟨hmain, ?_⟩
  intro i _ r lv hr hl hnlt hmem
  rw [hmain] at hmem
  have := List.of_mem_filter hmem
  rw [remote_newer, hr, hl] at this
  simp at this
  exact hnlt this

/-- Witness for C2: with stored dates a at 5 and b at 7 and remote dates a at
9 and b at 7, update_docs fetches and rewrites exactly a (strictly newer) and
leaves b (equal dates) alone. -/
theorem update_docs_timestamp_gating_witness :
    (["a"] : List String)
      = ["a", "b"].filter
          (fun i => remote_newer [("a", 9), ("b", 7)] [("a", 5), ("b", 7)] i) :=
  (update_docs_timestamp_gating ixW ["a", "b"] instW [("a", 9), ("b", 7)]
    [("a", 5), ("b", 7)] ix2W ["a"] (by rfl) (by rfl)).1

/-- C3: every sync pass crashes inside `Search.update_docs` because the call
at search.py:136 passes `remote_map` in the `doctype_instance` position of
the `update_docs` signature at search.py:207-212 (arguments swapped).  On the
concrete configuration `ctx3` (one credential, empty remote, empty index) the
very first sync invocation already raises AttributeError while reading
`doctype_instance.doctype` from a dict, so running sync twice with no remote
changes does not make the second run complete without error: neither run
completes at all. -/
theorem sync_documents_second_run_crashes :
    Search.sync_documents ctx3 []
      = Except.error "AttributeError: dict object has no attribute doctype" := by
  rfl

/-- C8: with two credentials sharing the doctype plain,
`Config.get_doctypes_names_map` (config.py:155-176) stores the return value
of `list.append` — Python None — as the value for plain (config.py:172), so
`Search.sync_documents` raises TypeError when it iterates the credential
names (search.py:117) instead of running one pass per credential name.  This
contradicts the docstring of get_doctypes_names_map, which promises a map of
doctype to a list of credential names. -/
theorem get_doctypes_names_map_append_bug :
    get_doctypes_names_map ctx8.creds
        = Except.ok [("plain", PyListVal.pynone)]
    ∧ Search.sync_documents ctx8 []
        = Except.error "TypeError: NoneType object is not iterable" := by
  exact ⟨rfl, rfl⟩

/-- C6 counterexample: `Search.add_docs` (search.py:163-179) has no exception
handling, so for a connector whose `get_by_id` raises when the document
vanished between enumeration and fetch (as e.g. `GDriveFileDoctype.get_by_id`
and `GithubMarkdownDoctype.get_by_id` do), the NotFoundError raised for the
first id x aborts the whole batch: the call returns the error instead of
adding the remaining id y and completing, refuting the claim that such a
fetch failure is not fatal to the bucket. -/
theorem add_docs_notfound_aborts_batch :
    Search.add_docs [] ["x", "y"] inst_gone = Except.error "NotFoundError" := by
  rfl

theorem fetch_all_ok (f : String → Doc) :
    ∀ l, Search.fetch_all (fun a => Except.ok (f a)) l = Except.ok (l.map f) := by
  intro l
  induction l with
  | nil => rfl
  | cons a rest ih => simp [Search.fetch_all, ih, except_ok_bind]

/-- C6 amended: add_docs itself never skips — a raising fetch aborts the
whole batch with nothing committed (see the counterexample) — but for a
connector in the style of `GithubIssuePRDoctype.get_by_id`
(github.py:406-412), which catches the not-found condition itself and
returns an empty dict, the batch does continue: every id of the bucket is
processed, the vanished id contributes only an empty document (rather than
being skipped outright), and afterwards the vanished id is absent from the
index, so a lookup of it finds nothing. -/
theorem add_docs_empty_dict_continues (ix : Index) (pre post : List String)
    (m : String) (dt : String) (rmm : List (String × Nat)) (f : String → Doc)
    (hm : f m = [])
    (hix : ∀ d ∈ ix, dictGet d SCHEMA_LABELS_ID ≠ some (FVal.str m))
    (hf : ∀ a, a ≠ m → dictGet (f a) SCHEMA_LABELS_ID ≠ some (FVal.str m)) :
    Search.add_docs ix (pre ++ m :: post) ⟨dt, rmm, fun a => Except.ok (f a)⟩
      = Except.ok (ix ++ (pre ++ m :: post).map f)
    ∧ Search.get_by_id (ix ++ (pre ++ m :: post).map f) m = none := by
  constructor
  · simp [Search.add_docs, fetch_all_ok, except_ok_bind]
  · rw [Search.get_by_id, List.find?_eq_none]
    intro d hd
    rcases List.mem_append.mp hd with hdix | hdmap
    · simp [hix d hdix]
    · obtain ⟨a, _, hda⟩ := List.mem_map.mp hdmap
      by_cases ha : a = m
      · subst ha
        rw [hm] at hda
        subst hda
        simp [dictGet]
      · have := hf a ha
        rw [hda] at this
        simp [this]

/-- Witness for C6 amended: with the github-issue-style fetch table `fW`
(empty dict for the vanished id x, well-formed documents otherwise), adding
the bucket x, y to an empty index succeeds, adds both results, and
afterwards no document with id x is found. -/
theorem add_docs_empty_dict_continues_witness :
    Search.add_docs [] ([] ++ "x" :: ["y"]) ⟨"plain", [], fun a => Except.ok (fW a)⟩
      = Except.ok ([] ++ ([] ++ "x" :: ["y"]).map fW)
    ∧ Search.get_by_id ([] ++ ([] ++ "x" :: ["y"]).map fW) "x" = none :=
  add_docs_empty_dict_continues [] [] ["y"] "x" "plain" [] fW (by rfl)
    (by intro d hd; simp at hd)
    (by
      intro a ha
      simp [fW, ha, dictGet, SCHEMA_LABELS_ID, FVal.str.injEq])

/-- C7 counterexample: on the concrete configuration `ctx7` with two
scheduled (kind, instance) pairs — (alpha, cred-a) and (beta, cred-b) — the
unhandled exception raised while processing the first pair propagates
straight out of `Search.sync_documents` (search.py:94-136 contains no
per-pair try/except): the invocation returns that exception instead of
running the second pair and instead of returning any structured per-pair
outcome report, refuting the claim. -/
theorem sync_documents_no_per_pair_boundary :
    Search.sync_documents ctx7 []
      = Except.error "AttributeError: dict object has no attribute doctype" := by
  rfl

theorem update_docs_dict_instance_errors (ix : Index) (tu : List String)
    (mm : List (String × Nat)) (v : PyArg) :
    Search.update_docs ix tu (PyArg.dict mm) (some v)
      = Except.error "AttributeError: dict object has no attribute doctype" := rfl

theorem sync_pair_always_errors (ctx : SyncCtx) (ix : Index) (d c : String) :
    ∃ e, Search.sync_pair ctx ix d c = Except.error e := by
  cases h : Search.sync_pair ctx ix d c with
  | error e => exact ⟨e, rfl⟩
  | ok ixr =>
    exfalso
    simp only [Search.sync_pair] at h
    obtain ⟨lm, hlm, h2⟩ := except_bind_eq_ok h
    obtain ⟨ix1, hadd, h3⟩ := except_bind_eq_ok h2
    obtain ⟨rr, hupd, h4⟩ := except_bind_eq_ok h3
    rw [update_docs_dict_instance_errors] at hupd
    cases hupd

theorem names_map_aux_shape :
    ∀ (cs : List Cred) (m0 m : List (String × PyListVal)),
    (∀ p ∈ m0, p.2 = PyListVal.pynone ∨ ∃ n, p.2 = PyListVal.lst [n]) →
    get_doctypes_names_map_aux cs m0 = Except.ok m →
    ∀ p ∈ m, p.2 = PyListVal.pynone ∨ ∃ n, p.2 = PyListVal.lst [n] := by
  intro cs
  induction cs with
  | nil =>
    intro m0 m h0 h
    simp [get_doctypes_names_map_aux] at h
    subst h
    exact h0
  | cons c rest ih =>
    intro m0 m h0 h
    simp only [get_doctypes_names_map_aux] at h
    cases hg : dictGet m0 c.doctype with
    | none =>
      rw [hg] at h
      refine ih _ _ ?_ h
      intro p hp
      rcases mem_dictInsert _ _ _ _ hp with hpe | hpm
      · exact Or.inr ⟨c.name, by rw [hpe]⟩
      · exact h0 p hpm
    | some v =>
      cases v with
      | pynone =>
        rw [hg] at h
        simp at h
      | lst l =>
        rw [hg] at h
        refine ih _ _ ?_ h
        intro p hp
        rcases mem_dictInsert _ _ _ _ hp with hpe | hpm
        · exact Or.inl (by rw [hpe])
        · exact h0 p hpm

theorem names_map_values_shape (creds : List Cred)
    (m : List (String × PyListVal)) (h : get_doctypes_names_map creds = Except.ok m) :
    ∀ p ∈ m, p.2 = PyListVal.pynone ∨ ∃ n, p.2 = PyListVal.lst [n] :=
  names_map_aux_shape creds [] m (by intro p hp; simp at hp) h

theorem dedupKeep_ne_nil (l : List String) (h : l ≠ []) : dedupKeep l ≠ [] := by
  cases l with
  | nil => exact absurd rfl h
  | cons x xs =>
    simp only [dedupKeep]
    by_cases hx : x ∈ dedupKeep xs
    · simpa [hx] using List.ne_nil_of_mem hx
    · simp [hx]

theorem insertSorted_ne_nil (x : String) (l : List String) :
    insertSorted x l ≠ [] := by
  cases l with
  | nil => simp [insertSorted]
  | cons y ys =>
    simp only [insertSorted]
    split <;> simp

theorem sortStrings_ne_nil (l : List String) (h : l ≠ []) :
    sortStrings l ≠ [] := by
  cases l with
  | nil => exact absurd rfl h
  | cons x xs =>
    simp only [sortStrings]
    exact insertSorted_ne_nil x (sortStrings xs)

/-- C7 amended: `Search.sync_documents` has no per-pair error boundary and
produces no outcome report; an unhandled exception raised while processing
one (kind, instance) pair propagates out of the whole invocation and the
remaining pairs never run.  In the code as it stands every pair raises (the
swapped update_docs call at search.py:136), so every sync invocation with at
least one configured credential terminates in an uncaught exception rather
than a per-pair report. -/
theorem sync_documents_error_propagation (ctx : SyncCtx) (ix : Index)
    (h : ctx.creds ≠ []) :
    ∃ e, Search.sync_documents ctx ix = Except.error e := by
  cases hm : get_doctypes_names_map ctx.creds with
  | error e =>
    refine ⟨e, ?_⟩
    simp only [Search.sync_documents]
    rw [hm]
    rfl
  | ok m =>
    have hshape := names_map_values_shape ctx.creds m hm
    have hdts : get_doctypes ctx.creds ≠ [] := by
      apply sortStrings_ne_nil
      apply dedupKeep_ne_nil
      intro hmap
      exact h (List.map_eq_nil_iff.mp hmap)
    obtain ⟨d, rest, hcons⟩ := List.exists_cons_of_ne_nil hdts
    simp only [Search.sync_documents]
    rw [hm, hcons, except_ok_bind]
    simp only [Search.sync_documents_aux]
    cases hget : dictGet m d with
    | none =>
      exact ⟨"KeyError: " ++ d, rfl⟩
    | some v =>
      cases v with
      | pynone =>
        exact ⟨"TypeError: NoneType object is not iterable", rfl⟩
      | lst l =>
        have hmem := dictGet_eq_some_mem m d (PyListVal.lst l) hget
        rcases hshape (d, PyListVal.lst l) hmem with hsh | ⟨n, hsh⟩
        · cases hsh
        · have hl : l = [n] := by
            cases hsh
            rfl
          subst hl
          obtain ⟨e, hsp⟩ := sync_pair_always_errors ctx ix d n
          refine ⟨e, ?_⟩
          simp [except_ok_bind, Search.sync_creds, hsp, except_error_bind]

/-- Witness for C7 amended: on the two-pair configuration `ctx7` the sync
invocation propagates an uncaught exception. -/
theorem sync_documents_error_propagation_witness :
    ∃ e, Search.sync_documents ctx7 [] = Except.error e :=
  sync_documents_error_propagation ctx7 [] (by decide)

/-- C4 counterexample: on the mismatched fixture registry the schema build
fails with the message built at search.py:60-61, which names the field
(mismatched_field) and the conflicting kind (mismatched-2) but does not
mention the already-registered type: after processing mismatched-1 the
registered type of mismatched_field is the TEXT field, whose type name TEXT
does not occur anywhere in the message, refuting the part of the claim that
says the error identifies the already-registered type. -/
theorem get_schema_error_omits_registered_type :
    Search.get_schema reg_mismatched ["mismatched-1", "mismatched-2"]
        = Except.error msg_mismatched
    ∧ hasSub ("mismatched_field".data) msg_mismatched.data = true
    ∧ hasSub ("mismatched-2".data) msg_mismatched.data = true
    ∧ hasSub ("TEXT".data) msg_mismatched.data = false
    ∧ ((Search.get_schema reg_mismatched ["mismatched-1"]).toOption.bind
        (fun sch => dictGet sch "mismatched_field"))
        = some (WhooshField.TEXT true 1 false)
    ∧ fieldType (WhooshField.TEXT true 1 false) = "TEXT" :=
  ⟨rfl, rfl, rfl, rfl, rfl, rfl⟩


/-! Helper lemmas for the schema unifier. -/

theorem merge_field_eq_of_some (d : String) (acc : List (String × WhooshField))
    (fs : String × WhooshField) (ours : WhooshField)
    (hg : dictGet acc fs.1 = some ours)
    (ht : fieldType fs.2 = fieldType ours) :
    Search.merge_field d acc fs = Except.ok acc := by
  unfold Search.merge_field
  rw [hg]
  exact if_neg (not_not_intro ht)

theorem merge_field_eq_of_none (d : String) (acc : List (String × WhooshField))
    (fs : String × WhooshField) (hg : dictGet acc fs.1 = none) :
    Search.merge_field d acc fs = Except.ok (acc ++ [(fs.1, fs.2)]) := by
  unfold Search.merge_field
  rw [hg]

theorem merge_field_ok_cases (d : String) (acc : List (String × WhooshField))
    (fs : String × WhooshField) (acc2 : List (String × WhooshField))
    (h : Search.merge_field d acc fs = Except.ok acc2) :
    (∃ ours, dictGet acc fs.1 = some ours
      ∧ fieldType fs.2 = fieldType ours ∧ acc2 = acc)
    ∨ (dictGet acc fs.1 = none ∧ acc2 = acc ++ [(fs.1, fs.2)]) := by
  unfold Search.merge_field at h
  split at h
  · rename_i ours hg
    split at h
    · exact Except.noConfusion h
    · rename_i ht
      injection h with h2
      exact Or.inl ⟨ours, hg, not_not.mp ht, h2.symm⟩
  · rename_i hg
    injection h with h2
    exact Or.inr ⟨hg, h2.symm⟩

theorem merge_field_error (d : String) (acc : List (String × WhooshField))
    (fs : String × WhooshField) (msg : String)
    (h : Search.merge_field d acc fs = Except.error msg) :
    msg = "Error: schema mismatch with existing index for field "
      ++ fs.1 ++ ", doctype " ++ d := by
  unfold Search.merge_field at h
  split at h
  · split at h
    · injection h with h2
      exact h2.symm
    · exact Except.noConfusion h
  · exact Except.noConfusion h

theorem merge_schema_nil (d : String) (acc : List (String × WhooshField)) :
    Search.merge_schema d acc [] = Except.ok acc := rfl

theorem merge_schema_cons (d : String) (acc : List (String × WhooshField))
    (fs : String × WhooshField) (rest : List (String × WhooshField)) :
    Search.merge_schema d acc (fs :: rest)
      = (Search.merge_field d acc fs >>= fun acc2 =>
          Search.merge_schema d acc2 rest) := rfl

theorem get_schema_aux_nil (registry : List (String × List (String × WhooshField)))
    (acc : List (String × WhooshField)) :
    Search.get_schema_aux registry acc [] = Except.ok acc := rfl

theorem get_schema_aux_cons_some
    (registry : List (String × List (String × WhooshField))) (d : String)
    (rest : List String) (acc : List (String × WhooshField))
    (s : List (String × WhooshField)) (hs : dictGet registry d = some s) :
    Search.get_schema_aux registry acc (d :: rest)
      = (Search.merge_schema d acc s >>= fun acc2 =>
          Search.get_schema_aux registry acc2 rest) := by
  simp only [Search.get_schema_aux]
  rw [hs]
  exact rfl

theorem get_schema_aux_cons_none
    (registry : List (String × List (String × WhooshField))) (d : String)
    (rest : List String) (acc : List (String × WhooshField))
    (hs : dictGet registry d = none) :
    Search.get_schema_aux registry acc (d :: rest)
      = Except.error ("KeyError: " ++ d) := by
  simp only [Search.get_schema_aux]
  rw [hs]
  exact rfl

theorem merge_schema_error (d : String) :
    ∀ (s : List (String × WhooshField)) (acc : List (String × WhooshField))
      (msg : String),
    Search.merge_schema d acc s = Except.error msg →
    ∃ f, msg = "Error: schema mismatch with existing index for field "
      ++ f ++ ", doctype " ++ d := by
  intro s
  induction s with
  | nil => intro acc msg h; rw [merge_schema_nil] at h; exact Except.noConfusion h
  | cons fs rest ih =>
    intro acc msg h
    rw [merge_schema_cons] at h
    cases hmf : Search.merge_field d acc fs with
    | error e =>
      rw [hmf, except_error_bind] at h
      injection h with h2
      exact ⟨fs.1, h2 ▸ merge_field_error d acc fs e hmf⟩
    | ok acc2 =>
      rw [hmf, except_ok_bind] at h
      exact ih acc2 msg h

theorem get_schema_aux_error
    (registry : List (String × List (String × WhooshField))) :
    ∀ (dts : List String) (acc : List (String × WhooshField)) (msg : String),
    (∀ d ∈ dts, (dictGet registry d).isSome) →
    Search.get_schema_aux registry acc dts = Except.error msg →
    ∃ f d, d ∈ dts
      ∧ msg = "Error: schema mismatch with existing index for field "
          ++ f ++ ", doctype " ++ d := by
  intro dts
  induction dts with
  | nil =>
    intro acc msg _ h
    rw [get_schema_aux_nil] at h
    exact Except.noConfusion h
  | cons d rest ih =>
    intro acc msg hreg h
    obtain ⟨s, hs⟩ :=
      Option.isSome_iff_exists.mp (hreg d (List.mem_cons_self d rest))
    rw [get_schema_aux_cons_some registry d rest acc s hs] at h
    cases hms : Search.merge_schema d acc s with
    | error e =>
      rw [hms, except_error_bind] at h
      injection h with h2
      obtain ⟨f, hf⟩ := merge_schema_error d s acc e hms
      exact ⟨f, d, List.mem_cons_self d rest, h2 ▸ hf⟩
    | ok acc2 =>
      rw [hms, except_ok_bind] at h
      obtain ⟨f, d2, hd2, hf⟩ :=
        ih acc2 msg (fun d3 hd3 => hreg d3 (List.mem_cons_of_mem d hd3)) h
      exact ⟨f, d2, List.mem_cons_of_mem d hd2, hf⟩

theorem merge_field_ok_nodup (d : String) (acc : List (String × WhooshField))
    (fs : String × WhooshField) (acc2 : List (String × WhooshField))
    (h : Search.merge_field d acc fs = Except.ok acc2)
    (hn : (dictKeys acc).Nodup) : (dictKeys acc2).Nodup := by
  rcases merge_field_ok_cases d acc fs acc2 h with ⟨ours, hg, ht, he⟩ | ⟨hg, he⟩
  · subst he
    exact hn
  · subst he
    have hnotin : fs.1 ∉ dictKeys acc := (dictGet_eq_none_iff acc fs.1).mp hg
    have heq : dictKeys (acc ++ [(fs.1, fs.2)]) = dictKeys acc ++ [fs.1] := by
      simp [dictKeys]
    rw [heq]
    refine List.Nodup.append hn (List.nodup_singleton fs.1) ?_
    intro a ha hb
    simp at hb
    subst hb
    exact hnotin ha

theorem merge_schema_ok_nodup (d : String) :
    ∀ (s : List (String × WhooshField)) (acc acc2 : List (String × WhooshField)),
    Search.merge_schema d acc s = Except.ok acc2 →
    (dictKeys acc).Nodup → (dictKeys acc2).Nodup := by
  intro s
  induction s with
  | nil =>
    intro acc acc2 h hn
    rw [merge_schema_nil] at h
    injection h with h2
    exact h2 ▸ hn
  | cons fs rest ih =>
    intro acc acc2 h hn
    rw [merge_schema_cons] at h
    obtain ⟨acc1, hmf, hrest⟩ := except_bind_eq_ok h
    exact ih acc1 acc2 hrest (merge_field_ok_nodup d acc fs acc1 hmf hn)

theorem get_schema_aux_ok_nodup
    (registry : List (String × List (String × WhooshField))) :
    ∀ (dts : List String) (acc sch : List (String × WhooshField)),
    Search.get_schema_aux registry acc dts = Except.ok sch →
    (dictKeys acc).Nodup → (dictKeys sch).Nodup := by
  intro dts
  induction dts with
  | nil =>
    intro acc sch h hn
    rw [get_schema_aux_nil] at h
    injection h with h2
    exact h2 ▸ hn
  | cons d rest ih =>
    intro acc sch h hn
    cases hg : dictGet registry d with
    | none =>
      rw [get_schema_aux_cons_none registry d rest acc hg] at h
      exact Except.noConfusion h
    | some s =>
      rw [get_schema_aux_cons_some registry d rest acc s hg] at h
      obtain ⟨acc2, hms, hrest⟩ := except_bind_eq_ok h
      exact ih acc2 sch hrest (merge_schema_ok_nodup d s acc acc2 hms hn)

theorem merge_field_mono (d : String) (acc : List (String × WhooshField))
    (fs : String × WhooshField) (acc2 : List (String × WhooshField))
    (h : Search.merge_field d acc fs = Except.ok acc2) :
    ∀ k v, dictGet acc k = some v → dictGet acc2 k = some v := by
  intro k v hkv
  rcases merge_field_ok_cases d acc fs acc2 h with ⟨ours, hg, ht, he⟩ | ⟨hg, he⟩
  · subst he
    exact hkv
  · subst he
    exact dictGet_append_some acc [(fs.1, fs.2)] k v hkv

theorem merge_schema_mono (d : String) :
    ∀ (s : List (String × WhooshField)) (acc acc2 : List (String × WhooshField)),
    Search.merge_schema d acc s = Except.ok acc2 →
    ∀ k v, dictGet acc k = some v → dictGet acc2 k = some v := by
  intro s
  induction s with
  | nil =>
    intro acc acc2 h k v hkv
    rw [merge_schema_nil] at h
    injection h with h2
    exact h2 ▸ hkv
  | cons fs rest ih =>
    intro acc acc2 h k v hkv
    rw [merge_schema_cons] at h
    obtain ⟨acc1, hmf, hrest⟩ := except_bind_eq_ok h
    exact ih acc1 acc2 hrest k v (merge_field_mono d acc fs acc1 hmf k v hkv)

theorem get_schema_aux_mono
    (registry : List (String × List (String × WhooshField))) :
    ∀ (dts : List String) (acc sch : List (String × WhooshField)),
    Search.get_schema_aux registry acc dts = Except.ok sch →
    ∀ k v, dictGet acc k = some v → dictGet sch k = some v := by
  intro dts
  induction dts with
  | nil =>
    intro acc sch h k v hkv
    rw [get_schema_aux_nil] at h
    injection h with h2
    exact h2 ▸ hkv
  | cons d rest ih =>
    intro acc sch h k v hkv
    cases hg : dictGet registry d with
    | none =>
      rw [get_schema_aux_cons_none registry d rest acc hg] at h
      exact Except.noConfusion h
    | some s =>
      rw [get_schema_aux_cons_some registry d rest acc s hg] at h
      obtain ⟨acc2, hms, hrest⟩ := except_bind_eq_ok h
      exact ih acc2 sch hrest k v (merge_schema_mono d s acc acc2 hms k v hkv)

theorem agreesIn_spec (acc : List (String × WhooshField))
    (fs : String × WhooshField) (h : agreesIn acc fs = true) :
    ∃ v, dictGet acc fs.1 = some v ∧ fieldType v = fieldType fs.2 := by
  unfold agreesIn at h
  split at h
  · rename_i v hg
    exact ⟨v, hg, beq_iff_eq.mp h⟩
  · exact Bool.noConfusion h

theorem agreesIn_of_dictGet (acc : List (String × WhooshField))
    (fs : String × WhooshField) (v : WhooshField)
    (hg : dictGet acc fs.1 = some v) (ht : fieldType v = fieldType fs.2) :
    agreesIn acc fs = true := by
  unfold agreesIn
  rw [hg]
  exact beq_iff_eq.mpr ht

theorem agreesIn_mono (acc acc2 : List (String × WhooshField))
    (fs : String × WhooshField)
    (hmono : ∀ k v, dictGet acc k = some v → dictGet acc2 k = some v)
    (h : agreesIn acc fs = true) : agreesIn acc2 fs = true := by
  obtain ⟨v, hg, ht⟩ := agreesIn_spec acc fs h
  exact agreesIn_of_dictGet acc2 fs v (hmono fs.1 v hg) ht

theorem merge_field_ok_agree (d : String) (acc : List (String × WhooshField))
    (fs : String × WhooshField) (acc2 : List (String × WhooshField))
    (h : Search.merge_field d acc fs = Except.ok acc2) :
    agreesIn acc2 fs = true := by
  rcases merge_field_ok_cases d acc fs acc2 h with ⟨ours, hg, ht, he⟩ | ⟨hg, he⟩
  · subst he
    exact agreesIn_of_dictGet _ fs ours hg ht.symm
  · subst he
    have hv : dictGet (acc ++ [(fs.1, fs.2)]) fs.1 = some fs.2 := by
      rw [dictGet_append_none acc [(fs.1, fs.2)] fs.1 hg]
      simp [dictGet]
    exact agreesIn_of_dictGet _ fs fs.2 hv rfl

theorem merge_schema_all_agree (d : String) :
    ∀ (s : List (String × WhooshField)) (acc acc2 : List (String × WhooshField)),
    Search.merge_schema d acc s = Except.ok acc2 →
    ∀ fs ∈ s, agreesIn acc2 fs = true := by
  intro s
  induction s with
  | nil => intro acc acc2 _ fs hfs; simp at hfs
  | cons fs0 rest ih =>
    intro acc acc2 h fs hfs
    rw [merge_schema_cons] at h
    obtain ⟨acc1, hmf, hrest⟩ := except_bind_eq_ok h
    rcases List.mem_cons.mp hfs with h1 | h1
    · subst h1
      exact agreesIn_mono acc1 acc2 fs (merge_schema_mono d rest acc1 acc2 hrest)
        (merge_field_ok_agree d acc fs acc1 hmf)
    · exact ih acc1 acc2 hrest fs h1

theorem get_schema_aux_all_agree
    (registry : List (String × List (String × WhooshField))) :
    ∀ (dts : List String) (acc sch : List (String × WhooshField)),
    Search.get_schema_aux registry acc dts = Except.ok sch →
    ∀ d ∈ dts, ∀ s, dictGet registry d = some s →
    ∀ fs ∈ s, agreesIn sch fs = true := by
  intro dts
  induction dts with
  | nil => intro acc sch _ d hd; simp at hd
  | cons d0 rest ih =>
    intro acc sch h d hd s hs fs hfs
    cases hg : dictGet registry d0 with
    | none =>
      rw [get_schema_aux_cons_none registry d0 rest acc hg] at h
      exact Except.noConfusion h
    | some s0 =>
      rw [get_schema_aux_cons_some registry d0 rest acc s0 hg] at h
      obtain ⟨acc2, hms, hrest⟩ := except_bind_eq_ok h
      rcases List.mem_cons.mp hd with h1 | h1
      · subst h1
        have hss : s = s0 := by
          rw [hg] at hs
          exact (Option.some.injEq _ _ ▸ hs).symm
        subst hss
        exact agreesIn_mono acc2 sch fs
          (get_schema_aux_mono registry rest acc2 sch hrest)
          (merge_schema_all_agree d s acc acc2 hms fs hfs)
      · exact ih acc2 sch hrest d h1 s hs fs hfs

theorem mem_registry_fields
    (registry : List (String × List (String × WhooshField))) :
    ∀ (dts : List String) (p : String × WhooshField),
    p ∈ registry_fields registry dts →
    ∃ d ∈ dts, ∃ s, dictGet registry d = some s ∧ p ∈ s := by
  intro dts
  induction dts with
  | nil => intro p hp; simp [registry_fields] at hp
  | cons d rest ih =>
    intro p hp
    simp only [registry_fields] at hp
    rcases List.mem_append.mp hp with h1 | h2
    · cases hg : dictGet registry d with
      | none =>
        rw [hg] at h1
        simp at h1
      | some s =>
        rw [hg] at h1
        exact ⟨d, List.mem_cons_self d rest, s, hg, h1⟩
    · obtain ⟨d2, hd2, s, hs, hps⟩ := ih p h2
      exact ⟨d2, List.mem_cons_of_mem d hd2, s, hs, hps⟩

theorem mem_registry_fields_of
    (registry : List (String × List (String × WhooshField))) :
    ∀ (dts : List String) (d : String) (s : List (String × WhooshField))
      (p : String × WhooshField),
    d ∈ dts → dictGet registry d = some s → p ∈ s →
    p ∈ registry_fields registry dts := by
  intro dts
  induction dts with
  | nil => intro d s p hd; simp at hd
  | cons d0 rest ih =>
    intro d s p hd hs hp
    simp only [registry_fields]
    rcases List.mem_cons.mp hd with h1 | h1
    · subst h1
      apply List.mem_append_left
      rw [hs]
      exact hp
    · exact List.mem_append_right _ (ih d s p h1 hs hp)

theorem merge_schema_ok_of_consistent (P : List (String × WhooshField))
    (hP : ∀ p ∈ P, ∀ q ∈ P, p.1 = q.1 → fieldType p.2 = fieldType q.2)
    (d : String) :
    ∀ (s : List (String × WhooshField)) (acc : List (String × WhooshField)),
    (∀ x ∈ s, x ∈ P) → (∀ x ∈ acc, x ∈ P) →
    ∃ acc2, Search.merge_schema d acc s = Except.ok acc2 ∧ ∀ x ∈ acc2, x ∈ P := by
  intro s
  induction s with
  | nil =>
    intro acc _ hacc
    exact ⟨acc, merge_schema_nil d acc, hacc⟩
  | cons fs rest ih =>
    intro acc hs hacc
    have hfs : fs ∈ P := hs fs (List.mem_cons_self fs rest)
    cases hg : dictGet acc fs.1 with
    | some ours =>
      have hours : (fs.1, ours) ∈ P :=
        hacc _ (dictGet_eq_some_mem acc fs.1 ours hg)
      have ht : fieldType ours = fieldType fs.2 := hP (fs.1, ours) hours fs hfs rfl
      obtain ⟨acc2, hms, hsub⟩ :=
        ih acc (fun x hx => hs x (List.mem_cons_of_mem fs hx)) hacc
      refine ⟨acc2, ?_, hsub⟩
      rw [merge_schema_cons, merge_field_eq_of_some d acc fs ours hg ht.symm,
        except_ok_bind]
      exact hms
    | none =>
      have hacc2 : ∀ x ∈ acc ++ [(fs.1, fs.2)], x ∈ P := by
        intro x hx
        rcases List.mem_append.mp hx with h1 | h1
        · exact hacc x h1
        · simp at h1
          subst h1
          simpa using hfs
      obtain ⟨acc2, hms, hsub⟩ :=
        ih (acc ++ [(fs.1, fs.2)])
          (fun x hx => hs x (List.mem_cons_of_mem fs hx)) hacc2
      refine ⟨acc2, ?_, hsub⟩
      rw [merge_schema_cons, merge_field_eq_of_none d acc fs hg, except_ok_bind]
      exact hms

theorem get_schema_aux_ok_of_consistent
    (registry : List (String × List (String × WhooshField)))
    (P : List (String × WhooshField))
    (hP : ∀ p ∈ P, ∀ q ∈ P, p.1 = q.1 → fieldType p.2 = fieldType q.2) :
    ∀ (dts : List String) (acc : List (String × WhooshField)),
    (∀ d ∈ dts, ∃ s, dictGet registry d = some s ∧ ∀ x ∈ s, x ∈ P) →
    (∀ x ∈ acc, x ∈ P) →
    ∃ sch, Search.get_schema_aux registry acc dts = Except.ok sch := by
  intro dts
  induction dts with
  | nil =>
    intro acc _ _
    exact ⟨acc, get_schema_aux_nil registry acc⟩
  | cons d rest ih =>
    intro acc hdts hacc
    obtain ⟨s, hs, hsP⟩ := hdts d (List.mem_cons_self d rest)
    obtain ⟨acc2, hms, hsub⟩ := merge_schema_ok_of_consistent P hP d s acc hsP hacc
    obtain ⟨sch, hrest⟩ :=
      ih acc2 (fun d2 hd2 => hdts d2 (List.mem_cons_of_mem d hd2)) hsub
    refine ⟨sch, ?_⟩
    rw [get_schema_aux_cons_some registry d rest acc s hs, hms, except_ok_bind]
    exact hrest

/-- C4 amended: for every registry state and configured kind list (with every
configured kind present in the registry): (1) when the schema build fails,
the error message names the mismatched field and the conflicting kind — but
not the already-registered type (see the counterexample); (2) on success
every field name appears exactly once in the unified schema; (3) if every
two declarations of the same field name among the common schema and the
configured kind schemas agree on the declared type, the build succeeds; and
(4) conversely, success implies all same-named declarations agree, so any
two kinds declaring one field name at different types make the build fail. -/
theorem get_schema_conflict_behavior :
    (∀ (registry : List (String × List (String × WhooshField)))
       (dts : List String) (msg : String),
      (∀ d ∈ dts, (dictGet registry d).isSome) →
      Search.get_schema registry dts = Except.error msg →
      ∃ f d, d ∈ dts
        ∧ msg = "Error: schema mismatch with existing index for field "
            ++ f ++ ", doctype " ++ d)
    ∧ (∀ (registry : List (String × List (String × WhooshField)))
         (dts : List String) (sch : List (String × WhooshField)),
        Search.get_schema registry dts = Except.ok sch → (dictKeys sch).Nodup)
    ∧ (∀ (registry : List (String × List (String × WhooshField)))
         (dts : List String),
        (∀ d ∈ dts, (dictGet registry d).isSome) →
        (∀ p ∈ schema_pool registry dts, ∀ q ∈ schema_pool registry dts,
          p.1 = q.1 → fieldType p.2 = fieldType q.2) →
        ∃ sch, Search.get_schema registry dts = Except.ok sch)
    ∧ (∀ (registry : List (String × List (String × WhooshField)))
         (dts : List String) (sch : List (String × WhooshField)),
        Search.get_schema registry dts = Except.ok sch →
        ∀ p ∈ schema_pool registry dts, ∀ q ∈ schema_pool registry dts,
          p.1 = q.1 → fieldType p.2 = fieldType q.2) := by
  refine ⟨?_, ?_, ?_, ?_⟩
  · intro registry dts msg hreg h
    exact get_schema_aux_error registry dts common_schema msg hreg h
  · intro registry dts sch h
    exact get_schema_aux_ok_nodup registry dts common_schema sch h (by decide)
  · intro registry dts hreg hcons
    refine get_schema_aux_ok_of_consistent registry (schema_pool registry dts)
      hcons dts common_schema ?_ ?_
    · intro d hd
      obtain ⟨s, hs⟩ := Option.isSome_iff_exists.mp (hreg d hd)
      refine ⟨s, hs, ?_⟩
      intro x hx
      exact List.mem_append_right _
        (mem_registry_fields_of registry dts d s x hd hs hx)
    · intro x hx
      exact List.mem_append_left _ hx
  · intro registry dts sch h p hp q hq hpq
    have hAgree : ∀ x ∈ schema_pool registry dts, agreesIn sch x = true := by
      intro x hx
      rcases List.mem_append.mp hx with hc | hr
      · have hv : dictGet common_schema x.1 = some x.2 :=
          dictGet_of_nodup_mem common_schema x.1 x.2 (by decide) (by simpa using hc)
        have hv2 : dictGet sch x.1 = some x.2 :=
          get_schema_aux_mono registry dts common_schema sch h x.1 x.2 hv
        exact agreesIn_of_dictGet sch x x.2 hv2 rfl
      · obtain ⟨d, hd, s, hs, hxs⟩ := mem_registry_fields registry dts x hr
        exact get_schema_aux_all_agree registry dts common_schema sch h
          d hd s hs x hxs
    obtain ⟨v, hv, hvt⟩ := agreesIn_spec sch p (hAgree p hp)
    obtain ⟨w, hw, hwt⟩ := agreesIn_spec sch q (hAgree q hq)
    rw [hpq] at hv
    rw [hw] at hv
    have hvw : w = v := Option.some.inj hv
    calc fieldType p.2 = fieldType v := hvt.symm
      _ = fieldType w := by rw [hvw]
      _ = fieldType q.2 := hwt

/-- Witness for C4 amended: two kinds declaring the shared field content at
exactly the same declared type build successfully. -/
theorem get_schema_conflict_behavior_witness :
    ∃ sch, Search.get_schema reg_ok ["kind-a", "kind-b"] = Except.ok sch :=
  get_schema_conflict_behavior.2.2.1 reg_ok ["kind-a", "kind-b"]
    (by decide) (by decide)
